import Mathlib

/-!
Verification of the AgriLink chat relay (`src/backend/app.py`).

We shallowly embed the pieces of `app.py` the claims are about:

* `ConnectionManager` (lines 665-689): `connect`, `disconnect`, `broadcast`
  over a `dict[str, List[WebSocket]]`, modelled as an association list from
  room id to the list of connections.  Connections are identified by `Nat`.
* the websocket handler `websocket_chat` (lines 982-1031): one iteration of
  the receive loop, handling a single inbound payload.
* the REST endpoint `send_message` (lines 901-945).

External collaborators are modelled by their observable behaviour:

* The Persistence Service (Prisma `db.message.create`) either returns a
  record echoing the supplied `content`/`senderId`/`chatId` together with a
  fresh `id` and `createdAt`, or raises; this is the `DbOutcome` parameter.
* Whether `websocket.send_text` succeeds on a given connection is the
  `sendOk : Conn → Bool` parameter; the observable of a broadcast is the
  list of attempted connections (in order) and the number of logged errors.

Python `list.remove` raises `ValueError` when the element is absent, so
`disconnect` returns `Except`.  Python `for` iterates a list by index, so a
concurrent `remove` shifts later elements; `iterBroadcast` models that
index-based iteration with an interleaved removal schedule.
-/

namespace AgriLink

/-- A websocket connection, identified by a natural number. -/
abbrev Conn := Nat

/-- A room identifier (the `room_id` path parameter / `chatId`). -/
abbrev RoomId := String

/-- A JSON value, rich enough to decide Python truthiness of the
`senderId` / `content` fields of an inbound payload. -/
inductive JVal where
  | null
  | str (s : String)
  | num (n : Int)
  | bool (b : Bool)
deriving Repr, DecidableEq

/-- Python truthiness: `None`, `""`, `0` and `False` are falsy. -/
def JVal.truthy : JVal → Bool
  | .null => false
  | .str s => s ≠ ""
  | .num n => n ≠ 0
  | .bool b => b

/-- Truthiness of `message_data.get(k)`: a missing key yields `None`,
which is falsy. -/
def truthyOpt : Option JVal → Bool
  | none => false
  | some v => v.truthy

/-- The record returned by the Persistence Service
(`db.message.create(data={...})`): the supplied fields echoed back plus
the generated `id` and `createdAt`.  `createdAt` is kept as the ISO-8601
string that `isoformat()` renders. -/
structure Message where
  id : String
  content : JVal
  senderId : JVal
  chatId : RoomId
  createdAt : String
deriving Repr, DecidableEq

/-- Outcome of one `db.message.create` call: success supplies the
generated `id` and `createdAt`; failure raises (caught by the caller's
`except Exception`). -/
inductive DbOutcome where
  | ok (id : String) (createdAt : String)
  | fail (e : String)
deriving Repr, DecidableEq

/-- The broadcast payload built by `json.dumps({...})` at lines 1010-1016
and 930-936: fields `{id, content, senderId, chatId, createdAt}`. -/
structure OutPayload where
  id : String
  content : JVal
  senderId : JVal
  chatId : RoomId
  createdAt : String
deriving Repr, DecidableEq

/-- Error replies sent back to the originating connection by
`websocket_chat`. -/
inductive Reply where
  | errorInvalidJson      -- {"error": "Invalid JSON format"}
  | errorFieldsRequired   -- {"error": "senderId and content are required"}
  | errorProcessing       -- {"error": "Error processing message"}
deriving Repr, DecidableEq

/-- Lookup in the `active_connections` dict. -/
def lookupRoom : List (RoomId × List Conn) → RoomId → Option (List Conn)
  | [], _ => none
  | (k, v) :: rest, r => if k = r then some v else lookupRoom rest r

/-- `d[r] = v`: replace the binding of `r` if present, else add it. -/
def setRoom : List (RoomId × List Conn) → RoomId → List Conn →
    List (RoomId × List Conn)
  | [], r, v => [(r, v)]
  | (k, w) :: rest, r, v =>
      if k = r then (r, v) :: rest else (k, w) :: setRoom rest r v

/-- `ConnectionManager` (app.py line 665): rooms mapped to the list of
active connections, in join order. -/
structure ConnectionManager where
  active_connections : List (RoomId × List Conn)
deriving Repr, DecidableEq

namespace ConnectionManager

/-- `connect` (lines 670-675): create the room's list if absent, then
append the websocket. -/
def connect (m : ConnectionManager) (room : RoomId) (ws : Conn) :
    ConnectionManager :=
  match lookupRoom m.active_connections room with
  | none => ⟨setRoom m.active_connections room [ws]⟩
  | some l => ⟨setRoom m.active_connections room (l ++ [ws])⟩

/-- `disconnect` (lines 677-680): if the room key exists, call
`list.remove(websocket)`, which deletes the first occurrence but raises
`ValueError` when the element is absent; if the room key is absent, do
nothing. -/
def disconnect (m : ConnectionManager) (room : RoomId) (ws : Conn) :
    Except String ConnectionManager :=
  match lookupRoom m.active_connections room with
  | none => .ok m
  | some l =>
      if ws ∈ l then
        .ok ⟨setRoom m.active_connections room (l.erase ws)⟩
      else
        .error "ValueError: list.remove(x): x not in list"

/-- `broadcast` (lines 682-689): iterate over the room's connections,
attempting `send_text` on each; a failing send is caught and logged and
nothing else happens.  Returns the manager (unchanged — the code never
mutates state here), the list of attempted connections in order, and the
number of logged errors. -/
def broadcast (m : ConnectionManager) (room : RoomId)
    (sendOk : Conn → Bool) :
    ConnectionManager × List Conn × Nat :=
  match lookupRoom m.active_connections room with
  | none => (m, [], 0)
  | some conns => (m, conns, (conns.filter (fun c => !sendOk c)).length)

end ConnectionManager

/-- The room keys currently present in the mapping. -/
def keys (m : ConnectionManager) : List RoomId :=
  m.active_connections.map Prod.fst

/-!
### Index-based iteration with concurrent removal

Python's `for connection in self.active_connections[room_id]` iterates by
index over the live list.  `await connection.send_text(...)` is a suspension
point, so another connection's task may run `manager.disconnect` (i.e.
`list.remove`) between two sends.  `iterBroadcast lst i sched acc` models
this: at each step the element at index `i` of the current list receives a
send attempt, then the scheduled removal (if any) deletes the first
occurrence of the named connection, then the index advances.  Iteration
ends when the index reaches the current length; list iteration in Python
never raises on concurrent modification, so the function is total.
-/

/-- One send attempt per index step, applying the interleaved removal
schedule after each send; returns the list of attempted connections.
The list length never grows and the index grows by one per step, so
`lst.length - i` bounds the remaining steps; it is passed as fuel to keep
the recursion structural (`iterBroadcastAux_fuel_stable` checks the fuel
never runs out early). -/
def iterBroadcastAux : Nat → List Conn → Nat → List (Option Conn) →
    List Conn → List Conn
  | 0, _, _, _, acc => acc
  | fuel + 1, lst, i, sched, acc =>
    if h : i < lst.length then
      let acc' := acc ++ [lst.get ⟨i, h⟩]
      match sched with
      | [] => iterBroadcastAux fuel lst (i + 1) [] acc'
      | none :: rest => iterBroadcastAux fuel lst (i + 1) rest acc'
      | some r :: rest => iterBroadcastAux fuel (lst.erase r) (i + 1) rest acc'
    else acc

/-- The send attempts made by one broadcast over the member list `lst`
when the removals in `sched` are interleaved between the sends (entry `k`
of `sched` runs right after the `k`-th send). -/
def iterBroadcast (lst : List Conn) (sched : List (Option Conn)) :
    List Conn :=
  iterBroadcastAux lst.length lst 0 sched []

/-!
### The websocket handler (`websocket_chat`, lines 982-1031)

One iteration of the receive loop, for one inbound text frame.  The text
either fails `json.loads` (raising `JSONDecodeError`), decodes to a
non-dict (so `.get` raises `AttributeError`, caught by the generic
`except Exception` handler), or decodes to an object from which the
handler reads the optional `senderId` and `content` fields.
-/

/-- The decoding outcome of one inbound text frame. -/
inductive Payload where
  | malformed
  | nonObject
  | object (senderId content : Option JVal)
deriving Repr, DecidableEq

/-- Observable result of handling one inbound frame: messages persisted
(zero or one), error replies sent to the originating connection, and
broadcast calls made (room paired with the serialized payload). -/
structure HandlerResult where
  persisted : List Message
  replies : List Reply
  broadcasts : List (RoomId × OutPayload)
deriving Repr, DecidableEq

/-- The body of the `while True` loop of `websocket_chat` for one frame
(lines 991-1028): parse, validate the two fields by truthiness, persist,
build the broadcast payload, broadcast; every failure path sends exactly
one error reply to the originating connection. -/
def handleFrame (room : RoomId) (p : Payload) (dbCreate : DbOutcome) :
    HandlerResult :=
  match p with
  | .malformed => ⟨[], [.errorInvalidJson], []⟩
  | .nonObject => ⟨[], [.errorProcessing], []⟩
  | .object sid cnt =>
      if !truthyOpt sid || !truthyOpt cnt then
        ⟨[], [.errorFieldsRequired], []⟩
      else
        match dbCreate with
        | .fail _ => ⟨[], [.errorProcessing], []⟩
        | .ok id ts =>
            let msg : Message :=
              ⟨id, cnt.getD .null, sid.getD .null, room, ts⟩
            ⟨[msg], [],
              [(room, ⟨msg.id, msg.content, msg.senderId, msg.chatId,
                msg.createdAt⟩)]⟩

/-- One frame of `websocket_chat` together with the `manager.broadcast`
call it triggers: returns the manager afterwards, the handler observables,
and the list of connections a delivery was attempted to. -/
def wsStep (m : ConnectionManager) (room : RoomId) (p : Payload)
    (dbCreate : DbOutcome) (sendOk : Conn → Bool) :
    ConnectionManager × HandlerResult × List Conn :=
  let r := handleFrame room p dbCreate
  match r.broadcasts with
  | [] => (m, r, [])
  | (rm, _) :: _ =>
      ((m.broadcast rm sendOk).1, r, (m.broadcast rm sendOk).2.1)

/-!
### The REST endpoint (`send_message`, lines 901-945)

The three Persistence Service reads are abstracted by a context: the
chat's participant list when the chat exists, whether the sender exists,
and the outcome of `db.message.create`.
-/

/-- Persistence-side context for one `POST /messages` call. -/
structure RestCtx where
  chatParticipants : Option (List String)
  senderExists : Bool
  create : DbOutcome
deriving Repr, DecidableEq

/-- `MessageCreate` (app.py lines 94-97). -/
structure MessageCreate where
  chatId : String
  senderId : String
  content : String
deriving Repr, DecidableEq

/-- `send_message` (lines 901-945): validate chat, sender and membership,
persist, then broadcast the serialized record to the room named by
`chatId`, and only then return the HTTP response.  Errors surface as an
HTTP status and detail.  On success the result carries the persisted
record, the broadcast payload, the room broadcast to, the attempted
connections, and the manager afterwards. -/
def send_message (ctx : RestCtx) (req : MessageCreate)
    (m : ConnectionManager) (sendOk : Conn → Bool) :
    Except (Nat × String)
      (Message × OutPayload × RoomId × List Conn × ConnectionManager) :=
  match ctx.chatParticipants with
  | none => .error (404, "Chat not found")
  | some participants =>
      if !ctx.senderExists then .error (404, "Sender not found")
      else if req.senderId ∉ participants then
        .error (403, "Sender is not a participant in this chat")
      else
        match ctx.create with
        | .fail e => .error (500, "Error sending message: " ++ e)
        | .ok id ts =>
            let msg : Message :=
              ⟨id, .str req.content, .str req.senderId, req.chatId, ts⟩
            let payload : OutPayload :=
              ⟨msg.id, msg.content, msg.senderId, msg.chatId, msg.createdAt⟩
            let bc := m.broadcast req.chatId sendOk
            .ok (msg, payload, req.chatId, bc.2.1, bc.1)

/-! ### Helper lemmas about the dict model -/

theorem lookupRoom_setRoom_self (d : List (RoomId × List Conn)) (r : RoomId)
    (v : List Conn) : lookupRoom (setRoom d r v) r = some v := by
  induction d with
  | nil => simp [setRoom, lookupRoom]
  | cons kv rest ih =>
    obtain ⟨k, w⟩ := kv
    by_cases hk : k = r
    · simp [setRoom, lookupRoom, hk]
    · simp [setRoom, lookupRoom, hk, ih]

theorem keys_setRoom_of_none (d : List (RoomId × List Conn)) (r : RoomId)
    (v : List Conn) (h : lookupRoom d r = none) :
    (setRoom d r v).map Prod.fst = d.map Prod.fst ++ [r] := by
  induction d with
  | nil => simp [setRoom]
  | cons kv rest ih =>
    obtain ⟨k, w⟩ := kv
    by_cases hk : k = r
    · simp [lookupRoom, hk] at h
    · simp only [lookupRoom, if_neg hk] at h
      simp [setRoom, hk, ih h]

theorem keys_setRoom_of_some (d : List (RoomId × List Conn)) (r : RoomId)
    (v l : List Conn) (h : lookupRoom d r = some l) :
    (setRoom d r v).map Prod.fst = d.map Prod.fst := by
  induction d with
  | nil => simp [lookupRoom] at h
  | cons kv rest ih =>
    obtain ⟨k, w⟩ := kv
    by_cases hk : k = r
    · simp [setRoom, hk]
    · simp only [lookupRoom, if_neg hk] at h
      simp [setRoom, hk, ih h]

/-! ### Helper lemmas about the interleaved iteration model -/

theorem iterBroadcastAux_no_sched (fuel : Nat) :
    ∀ (lst : List Conn) (i : Nat) (acc : List Conn),
      lst.length - i ≤ fuel →
      iterBroadcastAux fuel lst i [] acc = acc ++ lst.drop i := by
  induction fuel with
  | zero =>
    intro lst i acc h
    have hle : lst.length ≤ i := by omega
    simp [iterBroadcastAux, List.drop_eq_nil_of_le hle]
  | succ fuel ih =>
    intro lst i acc h
    by_cases hi : i < lst.length
    · rw [iterBroadcastAux]
      simp only [dif_pos hi]
      rw [ih lst (i + 1) _ (by omega)]
      rw [List.drop_eq_getElem_cons hi]
      simp
    · have hle : lst.length ≤ i := by omega
      rw [iterBroadcastAux]
      simp [hi, List.drop_eq_nil_of_le hle]

/-- The fuel `lst.length - i` is enough: adding more fuel does not change
the result, so `iterBroadcast`'s fuel never cuts an iteration short. -/
theorem iterBroadcastAux_fuel_stable (fuel : Nat) :
    ∀ (extra : Nat) (lst : List Conn) (i : Nat) (sched : List (Option Conn))
      (acc : List Conn), lst.length - i ≤ fuel →
      iterBroadcastAux (fuel + extra) lst i sched acc =
        iterBroadcastAux fuel lst i sched acc := by
  induction fuel with
  | zero =>
    intro extra lst i sched acc h
    have hle : ¬ i < lst.length := by omega
    cases extra with
    | zero => rfl
    | succ extra =>
      have h0 : (0 : Nat) + (extra + 1) = extra + 1 := by omega
      rw [h0, iterBroadcastAux, iterBroadcastAux]
      simp [hle]
  | succ fuel ih =>
    intro extra lst i sched acc h
    by_cases hi : i < lst.length
    · have hstep : fuel + 1 + extra = (fuel + extra) + 1 := by omega
      rw [hstep, iterBroadcastAux, iterBroadcastAux]
      simp only [dif_pos hi]
      cases sched with
      | nil => exact ih extra lst (i + 1) [] _ (by omega)
      | cons o rest =>
        cases o with
        | none => exact ih extra lst (i + 1) rest _ (by omega)
        | some r =>
          have := List.length_erase_le r lst
          exact ih extra (lst.erase r) (i + 1) rest _ (by omega)
    · have hstep : fuel + 1 + extra = (fuel + extra) + 1 := by omega
      rw [hstep, iterBroadcastAux, iterBroadcastAux]
      simp [hi]

theorem mem_iterBroadcastAux (fuel : Nat) :
    ∀ (lst : List Conn) (i : Nat) (sched : List (Option Conn))
      (acc : List Conn) (x : Conn),
      x ∈ iterBroadcastAux fuel lst i sched acc → x ∈ acc ∨ x ∈ lst := by
  induction fuel with
  | zero =>
    intro lst i sched acc x hx
    rw [iterBroadcastAux] at hx
    exact Or.inl hx
  | succ fuel ih =>
    intro lst i sched acc x hx
    by_cases hi : i < lst.length
    · have hget : lst.get ⟨i, hi⟩ ∈ lst := lst.get_mem _ _
      rw [iterBroadcastAux] at hx
      simp only [dif_pos hi] at hx
      cases sched with
      | nil =>
        rcases ih lst (i + 1) [] _ x hx with h | h
        · rcases List.mem_append.1 h with h | h
          · exact Or.inl h
          · simp only [List.mem_singleton] at h
            exact Or.inr (h ▸ hget)
        · exact Or.inr h
      | cons o rest =>
        cases o with
        | none =>
          rcases ih lst (i + 1) rest _ x hx with h | h
          · rcases List.mem_append.1 h with h | h
            · exact Or.inl h
            · simp only [List.mem_singleton] at h
              exact Or.inr (h ▸ hget)
          · exact Or.inr h
        | some r =>
          rcases ih (lst.erase r) (i + 1) rest _ x hx with h | h
          · rcases List.mem_append.1 h with h | h
            · exact Or.inl h
            · simp only [List.mem_singleton] at h
              exact Or.inr (h ▸ hget)
          · exact Or.inr (List.mem_of_mem_erase h)
    · rw [iterBroadcastAux] at hx
      simp only [dif_neg hi] at hx
      exact Or.inl hx

/-! ## Claim theorems -/

/-- C2 counterexample: `disconnect` is not idempotent.  With room `"r1"`
holding only connection `1`, disconnecting the absent connection `2` is
not a no-op: `list.remove` raises `ValueError` instead of leaving the
mapping unchanged. -/
theorem C2_counterexample :
    ConnectionManager.disconnect ⟨[("r1", [1])]⟩ "r1" 2 =
      .error "ValueError: list.remove(x): x not in list" ∧
    (ConnectionManager.disconnect ⟨[("r1", [1])]⟩ "r1" 2).isOk = false := by
  constructor
  · rfl
  · rfl

/-- C2 (amended): `disconnect` is a no-op only when the room key is absent
from the mapping; when the room key exists, removing an absent connection
raises `ValueError`, and removing a present connection deletes its first
occurrence and leaves everything else unchanged. -/
theorem C2_disconnect_cases (m : ConnectionManager) (room : RoomId)
    (ws : Conn) :
    (lookupRoom m.active_connections room = none →
      m.disconnect room ws = .ok m) ∧
    (∀ l, lookupRoom m.active_connections room = some l → ws ∉ l →
      m.disconnect room ws =
        .error "ValueError: list.remove(x): x not in list") ∧
    (∀ l, lookupRoom m.active_connections room = some l → ws ∈ l →
      m.disconnect room ws =
        .ok ⟨setRoom m.active_connections room (l.erase ws)⟩) := by
  refine ⟨?_, ?_, ?_⟩
  · intro h
    simp [ConnectionManager.disconnect, h]
  · intro l h hmem
    simp [ConnectionManager.disconnect, h, hmem]
  · intro l h hmem
    simp [ConnectionManager.disconnect, h, hmem]

/-- C2 witness: the no-op case at an absent room, and removal of a present
connection, at concrete inputs. -/
theorem C2_disconnect_cases_witness :
    ConnectionManager.disconnect ⟨[]⟩ "r1" 1 = .ok ⟨[]⟩ ∧
    ConnectionManager.disconnect ⟨[("r1", [1, 2])]⟩ "r1" 1 =
      .ok ⟨[("r1", [2])]⟩ := by
  constructor
  · exact (C2_disconnect_cases ⟨[]⟩ "r1" 1).1 rfl
  · exact (C2_disconnect_cases ⟨[("r1", [1, 2])]⟩ "r1" 1).2.2 [1, 2] rfl
      (by decide)

/-- C3 counterexample: a failed send during broadcast is *not* an implicit
Leave.  With room `"r1"` holding connections `1` and `2` and the send to
`1` failing, the broadcast logs one error but the manager state is
unchanged and connection `1` is still a member of `"r1"` afterwards. -/
theorem C3_counterexample :
    ConnectionManager.broadcast ⟨[("r1", [1, 2])]⟩ "r1" (fun c => c != 1) =
      (⟨[("r1", [1, 2])]⟩, [1, 2], 1) ∧
    1 ∈ (lookupRoom (ConnectionManager.broadcast ⟨[("r1", [1, 2])]⟩ "r1"
      (fun c => c != 1)).1.active_connections "r1").getD [] := by
  constructor
  · rfl
  · decide

/-- C3 (amended): a send failure during broadcast is logged and otherwise
ignored: the room-to-members mapping is unchanged (no removal, no close),
every member still receives a delivery attempt, and one error is logged per
failing member. -/
theorem C3_broadcast_failure_logged_only (m : ConnectionManager)
    (room : RoomId) (sendOk : Conn → Bool) (conns : List Conn)
    (h : lookupRoom m.active_connections room = some conns) :
    m.broadcast room sendOk =
      (m, conns, (conns.filter (fun c => !sendOk c)).length) := by
  simp [ConnectionManager.broadcast, h]

/-- C3 witness: concrete broadcast with one failing member. -/
theorem C3_broadcast_failure_logged_only_witness :
    ConnectionManager.broadcast ⟨[("r1", [1, 2])]⟩ "r1" (fun c => c != 1) =
      (⟨[("r1", [1, 2])]⟩, [1, 2], 1) := by
  have h := C3_broadcast_failure_logged_only ⟨[("r1", [1, 2])]⟩ "r1"
    (fun c => c != 1) [1, 2] rfl
  exact h

/-- C5: broadcasting to a room whose member list holds `N` connections
makes exactly `N` delivery attempts, one per member in order, and in
particular the originating sender (being a member) receives an attempt. -/
theorem C5_broadcast_attempts (m : ConnectionManager) (room : RoomId)
    (sendOk : Conn → Bool) (conns : List Conn)
    (h : lookupRoom m.active_connections room = some conns) :
    (m.broadcast room sendOk).2.1 = conns ∧
    (m.broadcast room sendOk).2.1.length = conns.length ∧
    (∀ sender ∈ conns, sender ∈ (m.broadcast room sendOk).2.1) := by
  simp [ConnectionManager.broadcast, h]

/-- C5 witness: a room with three members (sender `1` among them) gets
exactly three attempts. -/
theorem C5_broadcast_attempts_witness :
    (ConnectionManager.broadcast ⟨[("r1", [1, 2, 3])]⟩ "r1"
      (fun _ => true)).2.1 = [1, 2, 3] ∧
    (ConnectionManager.broadcast ⟨[("r1", [1, 2, 3])]⟩ "r1"
      (fun _ => true)).2.1.length = 3 ∧
    1 ∈ (ConnectionManager.broadcast ⟨[("r1", [1, 2, 3])]⟩ "r1"
      (fun _ => true)).2.1 := by
  have h := C5_broadcast_attempts ⟨[("r1", [1, 2, 3])]⟩ "r1"
    (fun _ => true) [1, 2, 3] rfl
  exact ⟨h.1, h.2.1, h.2.2 1 (by decide)⟩

/-- C8: `connect` creates the room's member list when absent and appends
the connection; disconnecting the last member keeps the room as an empty
entry; no operation (`connect`, `disconnect`, `broadcast`) ever deletes a
room key from the mapping. -/
theorem C8_room_lifecycle (m : ConnectionManager) (room : RoomId)
    (ws : Conn) :
    (lookupRoom m.active_connections room = none →
      lookupRoom (m.connect room ws).active_connections room = some [ws] ∧
      keys (m.connect room ws) = keys m ++ [room]) ∧
    (∀ l, lookupRoom m.active_connections room = some l →
      lookupRoom (m.connect room ws).active_connections room =
        some (l ++ [ws]) ∧
      keys (m.connect room ws) = keys m) ∧
    (lookupRoom m.active_connections room = some [ws] →
      m.disconnect room ws = .ok ⟨setRoom m.active_connections room []⟩ ∧
      lookupRoom (setRoom m.active_connections room []) room = some []) ∧
    (∀ m', m.disconnect room ws = .ok m' → keys m' = keys m) ∧
    (∀ sendOk, (m.broadcast room sendOk).1 = m) := by
  refine ⟨?_, ?_, ?_, ?_, ?_⟩
  · intro h
    constructor
    · simp [ConnectionManager.connect, h, lookupRoom_setRoom_self]
    · simp [ConnectionManager.connect, h, keys, keys_setRoom_of_none _ _ _ h]
  · intro l h
    constructor
    · simp [ConnectionManager.connect, h, lookupRoom_setRoom_self]
    · simp [ConnectionManager.connect, h, keys,
        keys_setRoom_of_some _ _ _ _ h]
  · intro h
    constructor
    · simp [ConnectionManager.disconnect, h]
    · exact lookupRoom_setRoom_self _ _ _
  · intro m' h
    cases hl : lookupRoom m.active_connections room with
    | none =>
        simp only [ConnectionManager.disconnect, hl] at h
        have hm := Except.ok.inj h
        rw [← hm]
    | some l =>
        simp only [ConnectionManager.disconnect, hl] at h
        by_cases hmem : ws ∈ l
        · rw [if_pos hmem] at h
          have hm := Except.ok.inj h
          rw [← hm]
          simp [keys, keys_setRoom_of_some _ _ _ _ hl]
        · rw [if_neg hmem] at h
          exact absurd h (by simp)
  · intro sendOk
    unfold ConnectionManager.broadcast
    cases lookupRoom m.active_connections room <;> rfl

/-- C8 witness: concrete join into a fresh room, join into an existing
room, last-member leave keeping the empty entry, and key preservation. -/
theorem C8_room_lifecycle_witness :
    lookupRoom (ConnectionManager.connect ⟨[]⟩ "r1" 1).active_connections
      "r1" = some [1] ∧
    keys (ConnectionManager.connect ⟨[]⟩ "r1" 1) = [] ++ ["r1"] ∧
    ConnectionManager.disconnect ⟨[("r1", [1])]⟩ "r1" 1 =
      .ok ⟨setRoom [("r1", [1])] "r1" []⟩ ∧
    lookupRoom (setRoom [("r1", [1])] "r1" []) "r1" = some [] := by
  refine ⟨((C8_room_lifecycle ⟨[]⟩ "r1" 1).1 rfl).1,
    ((C8_room_lifecycle ⟨[]⟩ "r1" 1).1 rfl).2,
    ((C8_room_lifecycle ⟨[("r1", [1])]⟩ "r1" 1).2.2.1 rfl).1,
    ((C8_room_lifecycle ⟨[("r1", [1])]⟩ "r1" 1).2.2.1 rfl).2⟩

/-- C7 counterexample: removal during an in-progress broadcast *can*
prevent a send attempt to a remaining member.  With members `[0, 1, 2]`,
if connection `0` is removed right after its own send (e.g. its task
disconnects), the index-based loop next reads index `1` of the shifted
list `[1, 2]`, so the attempts are `[0, 2]`: member `1` — still a member,
never removed — gets no delivery attempt. -/
theorem C7_counterexample :
    iterBroadcast [0, 1, 2] [some 0] = [0, 2] ∧
    (1 : Conn) ∉ iterBroadcast [0, 1, 2] [some 0] ∧
    (1 : Conn) ∈ [0, 1, 2].erase 0 := by decide

/-- C7 (amended): a send *failure* on one member never aborts the
broadcast — the attempts are exactly the member list no matter which sends
fail; with no interleaved removal the index-based loop also attempts every
member; and under any interleaved removal schedule every attempted
connection was a member when the broadcast started (the loop is total, so
nothing is raised).  However, by `C7_counterexample`, a removal can shift
the list so that one remaining member is skipped. -/
theorem C7_failure_containment (m : ConnectionManager) (room : RoomId)
    (sendOk : Conn → Bool) (conns : List Conn)
    (h : lookupRoom m.active_connections room = some conns) :
    (m.broadcast room sendOk).2.1 = conns ∧
    iterBroadcast conns [] = conns ∧
    (∀ sched x, x ∈ iterBroadcast conns sched → x ∈ conns) := by
  refine ⟨by simp [ConnectionManager.broadcast, h], ?_, ?_⟩
  · unfold iterBroadcast
    rw [iterBroadcastAux_no_sched conns.length conns 0 [] (by omega)]
    simp
  · intro sched x hx
    rcases mem_iterBroadcastAux conns.length conns 0 sched [] x hx with h' | h'
    · simp at h'
    · exact h'

/-- C7 witness: concrete three-member broadcast with a failing middle
member still attempts all three; membership of attempts under a removal
schedule. -/
theorem C7_failure_containment_witness :
    (ConnectionManager.broadcast ⟨[("r1", [1, 2, 3])]⟩ "r1"
      (fun c => c != 2)).2.1 = [1, 2, 3] ∧
    iterBroadcast [1, 2, 3] [] = [1, 2, 3] := by
  have h := C7_failure_containment ⟨[("r1", [1, 2, 3])]⟩ "r1"
    (fun c => c != 2) [1, 2, 3] rfl
  exact ⟨h.1, h.2.1⟩

/-- C1: per inbound frame, a broadcast happens iff a message was
persisted; on valid input the handler persists the message and broadcasts
its serialization to the room; if persistence raises, the one error reply
goes to the originating connection, there are zero delivery attempts, and
the manager state is unchanged. -/
theorem C1_broadcast_iff_persisted (m : ConnectionManager) (room : RoomId)
    (sid cnt : Option JVal) (db : DbOutcome) (sendOk : Conn → Bool)
    (hs : truthyOpt sid = true) (hc : truthyOpt cnt = true) :
    (∀ (p : Payload) (db' : DbOutcome),
      (handleFrame room p db').broadcasts ≠ [] ↔
        (handleFrame room p db').persisted ≠ []) ∧
    (∀ id ts, db = .ok id ts →
      (wsStep m room (.object sid cnt) db sendOk).2.1 =
        ⟨[⟨id, cnt.getD .null, sid.getD .null, room, ts⟩], [],
          [(room, ⟨id, cnt.getD .null, sid.getD .null, room, ts⟩)]⟩ ∧
      (wsStep m room (.object sid cnt) db sendOk).2.2 =
        (m.broadcast room sendOk).2.1) ∧
    (∀ e, db = .fail e →
      wsStep m room (.object sid cnt) db sendOk =
        (m, ⟨[], [.errorProcessing], []⟩, [])) := by
  refine ⟨?_, ?_, ?_⟩
  · intro p db'
    cases p with
    | malformed => simp [handleFrame]
    | nonObject => simp [handleFrame]
    | object s c =>
        by_cases h1 : truthyOpt s
        · by_cases h2 : truthyOpt c
          · cases db' <;> simp [handleFrame, h1, h2]
          · simp [handleFrame, h1, h2]
        · simp [handleFrame, h1]
  · rintro id ts rfl
    constructor
    · simp [wsStep, handleFrame, hs, hc]
    · simp [wsStep, handleFrame, hs, hc]
  · rintro e rfl
    simp [wsStep, handleFrame, hs, hc]

/-- C1 witness: concrete valid frame, persisted and broadcast on success,
contained on persistence failure. -/
theorem C1_broadcast_iff_persisted_witness :
    (wsStep ⟨[("r1", [1, 2])]⟩ "r1"
        (.object (some (.str "A")) (some (.str "hi")))
        (.ok "m1" "2024-01-01T00:00:00") (fun _ => true)).2.1 =
      ⟨[⟨"m1", .str "hi", .str "A", "r1", "2024-01-01T00:00:00"⟩], [],
        [("r1", ⟨"m1", .str "hi", .str "A", "r1", "2024-01-01T00:00:00"⟩)]⟩ ∧
    wsStep ⟨[("r1", [1, 2])]⟩ "r1"
        (.object (some (.str "A")) (some (.str "hi")))
        (.fail "db down") (fun _ => true) =
      (⟨[("r1", [1, 2])]⟩, ⟨[], [.errorProcessing], []⟩, []) := by
  constructor
  · exact ((C1_broadcast_iff_persisted ⟨[("r1", [1, 2])]⟩ "r1"
      (some (.str "A")) (some (.str "hi")) (.ok "m1" "2024-01-01T00:00:00")
      (fun _ => true) (by decide) (by decide)).2.1 "m1" "2024-01-01T00:00:00"
      rfl).1
  · exact (C1_broadcast_iff_persisted ⟨[("r1", [1, 2])]⟩ "r1"
      (some (.str "A")) (some (.str "hi")) (.fail "db down")
      (fun _ => true) (by decide) (by decide)).2.2 "db down" rfl

/-- C4: a non-decodable frame gets exactly one `Invalid JSON format` error
reply to the same connection; a decoded object missing `senderId` or
`content` gets exactly one `senderId and content are required` error
reply; in both cases nothing is persisted and there are zero delivery
attempts. -/
theorem C4_error_replies (m : ConnectionManager) (room : RoomId)
    (db : DbOutcome) (sendOk : Conn → Bool) (sid cnt : Option JVal) :
    wsStep m room .malformed db sendOk =
      (m, ⟨[], [.errorInvalidJson], []⟩, []) ∧
    (sid = none ∨ cnt = none →
      wsStep m room (.object sid cnt) db sendOk =
        (m, ⟨[], [.errorFieldsRequired], []⟩, [])) := by
  constructor
  · simp [wsStep, handleFrame]
  · rintro (rfl | rfl)
    · simp [wsStep, handleFrame, truthyOpt]
    · simp [wsStep, handleFrame, truthyOpt]

/-- C4 witness: concrete malformed frame and concrete frame missing
`content`. -/
theorem C4_error_replies_witness :
    wsStep ⟨[("r1", [1])]⟩ "r1" .malformed (.ok "m1" "t") (fun _ => true) =
      (⟨[("r1", [1])]⟩, ⟨[], [.errorInvalidJson], []⟩, []) ∧
    wsStep ⟨[("r1", [1])]⟩ "r1" (.object (some (.str "A")) none)
        (.ok "m1" "t") (fun _ => true) =
      (⟨[("r1", [1])]⟩, ⟨[], [.errorFieldsRequired], []⟩, []) := by
  constructor
  · exact (C4_error_replies ⟨[("r1", [1])]⟩ "r1" (.ok "m1" "t")
      (fun _ => true) (some (.str "A")) none).1
  · exact (C4_error_replies ⟨[("r1", [1])]⟩ "r1" (.ok "m1" "t")
      (fun _ => true) (some (.str "A")) none).2 (Or.inr rfl)

/-- C9: a falsy `senderId` or `content` (empty string, `null`, `0`,
`false`) is treated exactly like an absent field: the handler replies
`senderId and content are required`, persists nothing and broadcasts
nothing — the same result as with both fields absent. -/
theorem C9_falsy_fields (m : ConnectionManager) (room : RoomId)
    (sid cnt : Option JVal) (db : DbOutcome) (sendOk : Conn → Bool)
    (h : truthyOpt sid = false ∨ truthyOpt cnt = false) :
    wsStep m room (.object sid cnt) db sendOk =
      (m, ⟨[], [.errorFieldsRequired], []⟩, []) ∧
    wsStep m room (.object sid cnt) db sendOk =
      wsStep m room (.object none none) db sendOk := by
  have hmain : wsStep m room (.object sid cnt) db sendOk =
      (m, ⟨[], [.errorFieldsRequired], []⟩, []) := by
    rcases h with h | h
    · simp [wsStep, handleFrame, h]
    · simp [wsStep, handleFrame, h]
  refine ⟨hmain, ?_⟩
  rw [hmain]
  simp [wsStep, handleFrame, truthyOpt]

/-- C9 witness: empty-string content and `null` senderId at concrete
inputs. -/
theorem C9_falsy_fields_witness :
    wsStep ⟨[("r1", [1])]⟩ "r1"
        (.object (some (.str "A")) (some (.str ""))) (.ok "m1" "t")
        (fun _ => true) =
      (⟨[("r1", [1])]⟩, ⟨[], [.errorFieldsRequired], []⟩, []) ∧
    wsStep ⟨[("r1", [1])]⟩ "r1"
        (.object (some .null) (some (.str "hi"))) (.ok "m1" "t")
        (fun _ => true) =
      (⟨[("r1", [1])]⟩, ⟨[], [.errorFieldsRequired], []⟩, []) := by
  constructor
  · exact (C9_falsy_fields ⟨[("r1", [1])]⟩ "r1" (some (.str "A"))
      (some (.str "")) (.ok "m1" "t") (fun _ => true)
      (Or.inr (by decide))).1
  · exact (C9_falsy_fields ⟨[("r1", [1])]⟩ "r1" (some .null)
      (some (.str "hi")) (.ok "m1" "t") (fun _ => true)
      (Or.inl (by decide))).1

/-- C6: on successful persistence, the broadcast payload is one object
with exactly the fields `{id, content, senderId, chatId, createdAt}`, with
`chatId` equal to the room joined and `createdAt` the persisted record's
timestamp string, and that single payload is what every member's delivery
attempt carries (attempts cover the whole member list). -/
theorem C6_payload_shape (m : ConnectionManager) (room : RoomId)
    (sid cnt : Option JVal) (id ts : String) (sendOk : Conn → Bool)
    (conns : List Conn)
    (hs : truthyOpt sid = true) (hc : truthyOpt cnt = true)
    (h : lookupRoom m.active_connections room = some conns) :
    (wsStep m room (.object sid cnt) (.ok id ts) sendOk).2.1.persisted =
      [⟨id, cnt.getD .null, sid.getD .null, room, ts⟩] ∧
    (wsStep m room (.object sid cnt) (.ok id ts) sendOk).2.1.broadcasts =
      [(room, ⟨id, cnt.getD .null, sid.getD .null, room, ts⟩)] ∧
    (wsStep m room (.object sid cnt) (.ok id ts) sendOk).2.2 = conns := by
  refine ⟨?_, ?_, ?_⟩ <;>
    simp [wsStep, handleFrame, hs, hc, ConnectionManager.broadcast, h]

/-- C6 witness: scenario from the spec — `A` and `B` (connections 1, 2)
in room `"r1"`, `A` sends `{"senderId":"A","content":"hi"}`; the one
payload has `content "hi"`, `senderId "A"`, `chatId "r1"`, the persisted
timestamp, and both members get the attempt. -/
theorem C6_payload_shape_witness :
    (wsStep ⟨[("r1", [1, 2])]⟩ "r1"
        (.object (some (.str "A")) (some (.str "hi")))
        (.ok "m1" "2024-01-01T00:00:00") (fun _ => true)).2.1.broadcasts =
      [("r1", ⟨"m1", .str "hi", .str "A", "r1", "2024-01-01T00:00:00"⟩)] ∧
    (wsStep ⟨[("r1", [1, 2])]⟩ "r1"
        (.object (some (.str "A")) (some (.str "hi")))
        (.ok "m1" "2024-01-01T00:00:00") (fun _ => true)).2.2 = [1, 2] := by
  have h := C6_payload_shape ⟨[("r1", [1, 2])]⟩ "r1" (some (.str "A"))
    (some (.str "hi")) "m1" "2024-01-01T00:00:00" (fun _ => true) [1, 2]
    (by decide) (by decide) rfl
  exact ⟨h.2.1, h.2.2⟩

/-- C10: a successful `POST /messages` call, after persisting, broadcasts
the persisted record's serialization to the websocket room named by the
message's `chatId` (every current member of that room gets a delivery
attempt) and only then returns the record as the HTTP response. -/
theorem C10_rest_broadcasts (ctx : RestCtx) (req : MessageCreate)
    (m : ConnectionManager) (sendOk : Conn → Bool)
    (participants : List String) (id ts : String) (conns : List Conn)
    (hchat : ctx.chatParticipants = some participants)
    (hsender : ctx.senderExists = true)
    (hmem : req.senderId ∈ participants)
    (hcreate : ctx.create = .ok id ts)
    (hroom : lookupRoom m.active_connections req.chatId = some conns) :
    send_message ctx req m sendOk =
      .ok (⟨id, .str req.content, .str req.senderId, req.chatId, ts⟩,
        ⟨id, .str req.content, .str req.senderId, req.chatId, ts⟩,
        req.chatId, conns, m) := by
  simp [send_message, hchat, hsender, hmem, hcreate,
    ConnectionManager.broadcast, hroom]

/-- C10 witness: concrete REST send into a chat whose websocket room has
two members. -/
theorem C10_rest_broadcasts_witness :
    send_message ⟨some ["A", "B"], true, .ok "m1" "2024-01-01T00:00:00"⟩
        ⟨"r1", "A", "hi"⟩ ⟨[("r1", [1, 2])]⟩ (fun _ => true) =
      .ok (⟨"m1", .str "hi", .str "A", "r1", "2024-01-01T00:00:00"⟩,
        ⟨"m1", .str "hi", .str "A", "r1", "2024-01-01T00:00:00"⟩,
        "r1", [1, 2], ⟨[("r1", [1, 2])]⟩) := by
  exact C10_rest_broadcasts ⟨some ["A", "B"], true,
      .ok "m1" "2024-01-01T00:00:00"⟩ ⟨"r1", "A", "hi"⟩ ⟨[("r1", [1, 2])]⟩
    (fun _ => true) ["A", "B"] "m1" "2024-01-01T00:00:00" [1, 2]
    rfl rfl (by decide) rfl rfl

end AgriLink
